import Mathlib

/-!
Shallow embedding of the ktoken exchange/ledger contract.

Sources embedded (paths relative to the repository root):
- `src/kt/src/ft.rs` — `AccountBalance` (amount + weighted-mean price) and the
  price-extended `FungibleToken` ledger (`internal_deposit`, `internal_withdraw`,
  `internal_transfer`, `internal_ft_resolve_transfer`).
- `src/kt/src/treasury.rs` — `Treasury` asset registry.
- `src/kt/src/price.rs` — `convert_decimals`, `ExpectedPrice.assert_price`,
  `exchange_asset_to_kt`, `exchange_kt_to_asset`.
- `src/kt/src/lib.rs` — `Contract` orchestration (`internal_buy`,
  `internal_sell`, `resolve_sell`).

Conventions of the embedding:
- Machine integers (`u128`) are `Nat` with explicit bound checks against
  `U128MAX`; each `checked_*` operation from the source becomes an
  `Option Nat`-valued function.
- Rust `pow` on `u128` and the plain `+` / `-=` operators abort on overflow
  (the contract is compiled with overflow checks, the NEAR SDK default); an
  abort is modelled as `none`.
- A host-level panic (`require!`, `env::panic_str`, `.unwrap()`) rolls the
  whole call's state changes back, so every state-mutating operation returns
  `Option State`: `none` means the call aborted and the pre-state stands.
- `LookupMap` / `UnorderedMap` stores are association lists over `Nat` keys;
  `insert` replaces the first binding of the key in place.
- `lib.rs` (and its unit tests) invoke the token ledger with amount-only
  calls (`internal_deposit(account, amount)`); that generation of the token
  ledger is embedded separately as `TokenLedger`, with the standard
  checked-amount NEP-141 semantics its unit tests exercise, while `ft.rs`'s
  price-extended ledger is embedded as `FungibleToken`.
-/

namespace KToken

/-- Largest value of the unsigned 128-bit word the contract computes in. -/
def U128MAX : Nat := 2 ^ 128 - 1

/-- `u128::checked_add`. -/
def chkAdd (a b : Nat) : Option Nat :=
  if a + b ≤ U128MAX then some (a + b) else none

/-- `u128::checked_sub`. -/
def chkSub (a b : Nat) : Option Nat :=
  if b ≤ a then some (a - b) else none

/-- `u128::checked_mul`. -/
def chkMul (a b : Nat) : Option Nat :=
  if a * b ≤ U128MAX then some (a * b) else none

/-- `u128::checked_div`: `none` exactly on division by zero. -/
def chkDiv (a b : Nat) : Option Nat :=
  if b = 0 then none else some (a / b)

/-- `10u128.pow k`: aborts (overflow check) when `10^k` exceeds the word. -/
def pow10 (k : Nat) : Option Nat :=
  if 10 ^ k ≤ U128MAX then some (10 ^ k) else none

/-- `u128::saturating_sub` (on `Nat` ordinary subtraction already saturates). -/
def satSub (a b : Nat) : Nat := a - b

/-- `u128::saturating_add`. -/
def satAdd (a b : Nat) : Nat := min (a + b) U128MAX

/-! ## `src/kt/src/ft.rs` — `AccountBalance` -/

/-- One holder's balance: token amount plus weighted mean acquisition price. -/
structure AccountBalance where
  amount : Nat
  price : Nat
  deriving Repr, DecidableEq

instance : Inhabited AccountBalance := ⟨⟨0, 0⟩⟩

/-- `AccountBalance::checked_add` — add `amount` bought at `price`, updating
the weighted arithmetic mean
(`match self.price.cmp(&price)`: Equal / Less / Greater branches). -/
def AccountBalance.checked_add (self : AccountBalance) (amount price : Nat) :
    Option AccountBalance := do
  let balance ← chkAdd self.amount amount
  let price ←
    if self.price = price then
      some price
    else if self.price < price then
      -- self.price + amount * (price - self.price) / balance
      chkAdd self.price (← chkDiv (← chkMul amount (price - self.price)) balance)
    else
      -- self.price - amount * (self.price - price) / balance
      chkSub self.price (← chkDiv (← chkMul amount (self.price - price)) balance)
  some ⟨balance, price⟩

/-- `AccountBalance::checked_sub` — remove `amount` sold at `price`; the mean
moves the opposite way to `checked_add`. -/
def AccountBalance.checked_sub (self : AccountBalance) (amount price : Nat) :
    Option AccountBalance := do
  let balance ← chkSub self.amount amount
  let price ←
    if self.price = price then
      some price
    else if self.price < price then
      -- self.price - amount * (price - self.price) / balance
      chkSub self.price (← chkDiv (← chkMul amount (price - self.price)) balance)
    else
      -- self.price + amount * (self.price - price) / balance
      chkAdd self.price (← chkDiv (← chkMul amount (self.price - price)) balance)
  some ⟨balance, price⟩

/-! ## Association-list stores (`LookupMap` / `UnorderedMap`) -/

/-- Keyed lookup in an association list (`map.get(&k)`). -/
def findA {α : Type} : List (Nat × α) → Nat → Option α
  | [], _ => none
  | (k, v) :: t, k' => if k = k' then some v else findA t k'

/-- Keyed insert, replacing the first binding in place (`map.insert(&k, &v)`). -/
def insertA {α : Type} : List (Nat × α) → Nat → α → List (Nat × α)
  | [], k, v => [(k, v)]
  | (k', v') :: t, k, v =>
    if k' = k then (k, v) :: t else (k', v') :: insertA t k v

/-! ## `src/kt/src/ft.rs` — `FungibleToken` (price-extended ledger) -/

/-- Account identifiers, abstracted to `Nat`. -/
abbrev AccountId := Nat

/-- The NEP-141 ledger carrying weighted-price balances and the total supply. -/
structure FungibleToken where
  accounts : List (AccountId × AccountBalance)
  total_supply : Nat
  deriving Repr, DecidableEq

/-- `FungibleToken::internal_unwrap_balance_of`: stored balance or default. -/
def FungibleToken.internal_unwrap_balance_of (t : FungibleToken)
    (account_id : AccountId) : AccountBalance :=
  (findA t.accounts account_id).getD ⟨0, 0⟩

/-- `FungibleToken::internal_deposit`: checked balance add then checked
total-supply add; either failure panics ("Balance overflow" /
"Total supply overflow"), rolling the call back (`none`). -/
def FungibleToken.internal_deposit (t : FungibleToken) (account_id : AccountId)
    (amount price : Nat) : Option FungibleToken := do
  let new_balance ← (t.internal_unwrap_balance_of account_id).checked_add amount price
  let ts ← chkAdd t.total_supply amount
  some ⟨insertA t.accounts account_id new_balance, ts⟩

/-- `FungibleToken::internal_withdraw`: checked balance sub then checked
total-supply sub; either failure panics, rolling the call back (`none`). -/
def FungibleToken.internal_withdraw (t : FungibleToken) (account_id : AccountId)
    (amount price : Nat) : Option FungibleToken := do
  let new_balance ← (t.internal_unwrap_balance_of account_id).checked_sub amount price
  let ts ← chkSub t.total_supply amount
  some ⟨insertA t.accounts account_id new_balance, ts⟩

/-- `FungibleToken::internal_transfer`: requires distinct accounts and a
positive amount, then withdraw from the sender and deposit to the receiver. -/
def FungibleToken.internal_transfer (t : FungibleToken)
    (sender_id receiver_id : AccountId) (amount price : Nat) :
    Option FungibleToken := do
  if sender_id = receiver_id then none
  else if amount = 0 then none
  else
    let t1 ← t.internal_withdraw sender_id amount price
    t1.internal_deposit receiver_id amount price

/-- Outcome of the `ft_on_transfer` promise consumed by
`internal_ft_resolve_transfer`: a successful call returning a parsable
unused amount, a successful call with an unparsable value, or a failure. -/
inductive TransferResult where
  | ok (unused : Nat)
  | badJson
  | failed
  deriving Repr, DecidableEq

/-- `FungibleToken::internal_ft_resolve_transfer`. Returns the new ledger with
(used amount, burned amount). Note the source's refund branch: failures of the
inner `checked_sub` / `checked_add` are silently skipped (the insert simply
does not happen), while the plain `sender_balance.amount + refund_amount`
addition and `total_supply -= refund_amount` abort on overflow (`none`). -/
def FungibleToken.internal_ft_resolve_transfer (t : FungibleToken)
    (sender_id receiver_id : AccountId) (amount price : Nat)
    (result : TransferResult) : Option (FungibleToken × Nat × Nat) :=
  let unused_amount :=
    match result with
    | .ok unused => min amount unused
    | .badJson => amount
    | .failed => amount
  if 0 < unused_amount then
    let receiver_balance := t.internal_unwrap_balance_of receiver_id
    if 0 < receiver_balance.amount then
      let refund_amount := min receiver_balance.amount unused_amount
      let t1 :=
        match receiver_balance.checked_sub refund_amount price with
        | some new_balance =>
          { t with accounts := insertA t.accounts receiver_id new_balance }
        | none => t
      match findA t1.accounts sender_id with
      | some sender_balance => do
        let credited ← chkAdd sender_balance.amount refund_amount
        let t2 :=
          match sender_balance.checked_add credited price with
          | some new_balance =>
            { t1 with accounts := insertA t1.accounts sender_id new_balance }
          | none => t1
        some (t2, amount - refund_amount, 0)
      | none => do
        let ts ← chkSub t1.total_supply refund_amount
        some ({ t1 with total_supply := ts }, amount, refund_amount)
    else
      some (t, amount, 0)
  else
    some (t, amount, 0)

/-- Sum of all stored balance amounts. -/
def sumBalances (accounts : List (AccountId × AccountBalance)) : Nat :=
  (accounts.map (fun p => p.2.amount)).sum

/-- The `TotalSupply == Σ HolderBalance.amount` invariant. -/
def FungibleToken.SupplyInv (t : FungibleToken) : Prop :=
  t.total_supply = sumBalances t.accounts

instance (t : FungibleToken) : Decidable t.SupplyInv := by
  unfold FungibleToken.SupplyInv
  infer_instance

/-! ## `src/kt/src/treasury.rs` — asset registry -/

/-- Asset identifiers, abstracted to `Nat`. -/
abbrev AssetId := Nat

inductive AssetStatus where
  | Enabled
  | Disabled
  deriving Repr, DecidableEq

structure AssetInfo where
  decimals : Nat
  balance : Nat
  status : AssetStatus
  deriving Repr, DecidableEq

/-- `MAX_U128_DECIMALS` from `src/kt/src/lib.rs`. -/
def MAX_U128_DECIMALS : Nat := 37

/-- `KT_DECIMALS` (native token precision) from `src/kt/src/lib.rs`. -/
def KT_DECIMALS : Nat := 18

/-- `AssetInfo::new`: requires `0 < decimals ≤ MAX_U128_DECIMALS`; a fresh
asset starts Enabled with zero pooled balance. -/
def AssetInfo.new (decimals : Nat) : Option AssetInfo :=
  if 0 < decimals ∧ decimals ≤ MAX_U128_DECIMALS then
    some ⟨decimals, 0, .Enabled⟩
  else
    none

structure Treasury where
  assets : List (AssetId × AssetInfo)
  deriving Repr, DecidableEq

/-- `Treasury::assert_asset`: the stored record, or a panic if unknown. -/
def Treasury.assert_asset (t : Treasury) (asset_id : AssetId) : Option AssetInfo :=
  findA t.assets asset_id

/-- `Treasury::assert_asset_status`: additionally requires the given status. -/
def Treasury.assert_asset_status (t : Treasury) (asset_id : AssetId)
    (status : AssetStatus) : Option AssetInfo := do
  let asset ← t.assert_asset asset_id
  if asset.status = status then some asset else none

/-- `Treasury::set_asset_status`: unconditional field update
(`.unwrap()` panics on an unknown asset). -/
def Treasury.set_asset_status (t : Treasury) (asset_id : AssetId)
    (status : AssetStatus) : Option Treasury := do
  let asset ← findA t.assets asset_id
  some ⟨insertA t.assets asset_id { asset with status := status }⟩

/-- `Treasury::enable_asset`: requires the asset currently Disabled. -/
def Treasury.enable_asset (t : Treasury) (asset_id : AssetId) : Option Treasury := do
  let _ ← t.assert_asset_status asset_id .Disabled
  t.set_asset_status asset_id .Enabled

/-- `Treasury::disable_asset`: requires the asset currently Enabled. -/
def Treasury.disable_asset (t : Treasury) (asset_id : AssetId) : Option Treasury := do
  let _ ← t.assert_asset_status asset_id .Enabled
  t.set_asset_status asset_id .Disabled

/-- `Treasury::add_asset`: fails if already registered or decimals invalid. -/
def Treasury.add_asset (t : Treasury) (asset_id : AssetId) (decimals : Nat) :
    Option Treasury := do
  if (findA t.assets asset_id).isSome then none
  else
    let asset ← AssetInfo.new decimals
    some ⟨insertA t.assets asset_id asset⟩

/-- `Treasury::internal_deposit`: checked add on the pooled balance. -/
def Treasury.internal_deposit (t : Treasury) (asset_id : AssetId) (amount : Nat) :
    Option Treasury := do
  let asset ← findA t.assets asset_id
  let new_balance ← chkAdd asset.balance amount
  some ⟨insertA t.assets asset_id { asset with balance := new_balance }⟩

/-- `Treasury::internal_withdraw`: checked sub on the pooled balance. -/
def Treasury.internal_withdraw (t : Treasury) (asset_id : AssetId) (amount : Nat) :
    Option Treasury := do
  let asset ← findA t.assets asset_id
  let new_balance ← chkSub asset.balance amount
  some ⟨insertA t.assets asset_id { asset with balance := new_balance }⟩

/-! ## `src/kt/src/price.rs` — fixed-point conversion and slippage -/

/-- A normalized oracle quote (`ExchangePrice`): multiplier and the decimal
difference it is expressed in. -/
structure ExchangePrice where
  multiplier : Nat
  decimals : Nat
  deriving Repr, DecidableEq

/-- `convert_decimals`: multiply by `10^(to-from)` when scaling up, divide by
`10^(from-to)` when scaling down, identity when equal. -/
def convert_decimals (amount fromDec toDec : Nat) : Option Nat :=
  if fromDec = toDec then some amount
  else if fromDec < toDec then do
    chkMul amount (← pow10 (toDec - fromDec))
  else do
    chkDiv amount (← pow10 (fromDec - toDec))

/-- `exchange_asset_to_kt`: rescale the asset amount to native precision, then
divide by the price (`amount * 10^(price.decimals - asset_decimals) /
price.multiplier`); the `u8` checked sub fails when the quote's decimals are
below the asset's. -/
def exchange_asset_to_kt (asset_amount asset_decimals : Nat)
    (price : ExchangePrice) : Option Nat := do
  let amount ← convert_decimals asset_amount asset_decimals KT_DECIMALS
  let diff ← chkSub price.decimals asset_decimals
  chkDiv (← chkMul amount (← pow10 diff)) price.multiplier

/-- `exchange_kt_to_asset`: multiply by the price, then rescale down to the
asset's precision. -/
def exchange_kt_to_asset (amount asset_decimals : Nat)
    (price : ExchangePrice) : Option Nat := do
  let diff ← chkSub price.decimals asset_decimals
  let a ← chkDiv (← chkMul amount price.multiplier) (← pow10 diff)
  convert_decimals a KT_DECIMALS asset_decimals

/-- A caller-supplied expected price with slippage tolerance. -/
structure ExpectedPrice where
  multiplier : Nat
  decimals : Nat
  slippage : Nat
  deriving Repr, DecidableEq

/-- `ExpectedPrice::assert_price`: requires matching decimals and the quote
multiplier within the saturating window
`[multiplier - slippage, multiplier + slippage]`; `true` means success. -/
def ExpectedPrice.assert_price (e : ExpectedPrice) (price : ExchangePrice) : Bool :=
  decide (e.decimals = price.decimals) &&
    (decide (satSub e.multiplier e.slippage ≤ price.multiplier) &&
      decide (price.multiplier ≤ satAdd e.multiplier e.slippage))

/-! ## `src/kt/src/lib.rs` — exchange orchestration

`lib.rs` (`internal_buy`, `internal_sell`, `resolve_sell`) and its own unit
tests call the token ledger with amount-only operations
(`self.token.internal_deposit(account_id, amount)`), the token-ledger
generation this file was written against; it is embedded here as
`TokenLedger` with the standard checked-amount semantics those tests
exercise (deposit: checked balance add + checked supply add; withdraw:
checked balance sub + checked supply sub). -/

/-- Amount-only token ledger used by the `lib.rs` orchestration. -/
structure TokenLedger where
  accounts : List (AccountId × Nat)
  total_supply : Nat
  deriving Repr, DecidableEq

/-- `ft_balance_of`: stored amount or 0 for unknown accounts. -/
def TokenLedger.balance_of (t : TokenLedger) (account_id : AccountId) : Nat :=
  (findA t.accounts account_id).getD 0

/-- Amount-only `internal_deposit`: checked balance and total-supply add. -/
def TokenLedger.internal_deposit (t : TokenLedger) (account_id : AccountId)
    (amount : Nat) : Option TokenLedger := do
  let nb ← chkAdd (t.balance_of account_id) amount
  let ts ← chkAdd t.total_supply amount
  some ⟨insertA t.accounts account_id nb, ts⟩

/-- Amount-only `internal_withdraw`: checked balance and total-supply sub. -/
def TokenLedger.internal_withdraw (t : TokenLedger) (account_id : AccountId)
    (amount : Nat) : Option TokenLedger := do
  let nb ← chkSub (t.balance_of account_id) amount
  let ts ← chkSub t.total_supply amount
  some ⟨insertA t.accounts account_id nb, ts⟩

/-- The contract state relevant to the exchange orchestration. -/
structure Contract where
  token : TokenLedger
  treasury : Treasury
  deriving Repr, DecidableEq

/-- One observable step of `Contract::internal_buy`, in execution order. -/
inductive BuyStep where
  | poolDeposit (asset_id : AssetId) (amount : Nat)
  | convert (result : Option Nat)
  | tokenDeposit (account_id : AccountId) (amount : Nat)
  deriving Repr, DecidableEq

/-- `Contract::internal_buy`, instrumented with the list of steps the source
performs in order: assert the asset Enabled, deposit the asset amount into
the treasury pool, run `exchange_asset_to_kt`, then deposit the converted
amount into the token ledger. A failure (panic) aborts the call: the final
state is `none` (all listed mutations are rolled back by the host), and the
trace records what had executed up to the abort. -/
def Contract.internal_buy_steps (c : Contract) (account_id : AccountId)
    (asset_id : AssetId) (amount : Nat) (price : ExchangePrice) :
    Option Contract × List BuyStep :=
  match c.treasury.assert_asset_status asset_id .Enabled with
  | none => (none, [])
  | some asset =>
    match c.treasury.internal_deposit asset_id amount with
    | none => (none, [])
    | some tr =>
      let conv := exchange_asset_to_kt amount asset.decimals price
      match conv with
      | none => (none, [.poolDeposit asset_id amount, .convert none])
      | some kt_amount =>
        match c.token.internal_deposit account_id kt_amount with
        | none => (none, [.poolDeposit asset_id amount, .convert conv])
        | some tok =>
          (some ⟨tok, tr⟩,
            [.poolDeposit asset_id amount, .convert conv,
              .tokenDeposit account_id kt_amount])

/-- `Contract::internal_buy`: the resulting state of the instrumented run. -/
def Contract.internal_buy (c : Contract) (account_id : AccountId)
    (asset_id : AssetId) (amount : Nat) (price : ExchangePrice) :
    Option Contract :=
  (c.internal_buy_steps account_id asset_id amount price).1

/-- `Contract::internal_sell`: assert the asset Enabled, withdraw the native
amount from the seller, convert it with `exchange_kt_to_asset`, withdraw the
asset amount from the treasury pool; returns the asset amount to transfer. -/
def Contract.internal_sell (c : Contract) (account_id : AccountId)
    (asset_id : AssetId) (amount : Nat) (price : ExchangePrice) :
    Option (Contract × Nat) := do
  let asset ← c.treasury.assert_asset_status asset_id .Enabled
  let tok ← c.token.internal_withdraw account_id amount
  let asset_amount ← exchange_kt_to_asset amount asset.decimals price
  let tr ← c.treasury.internal_withdraw asset_id asset_amount
  some (⟨tok, tr⟩, asset_amount)

/-- Terminal outcome of the remote `ft_transfer` promise. -/
inductive PromiseOutcome where
  | successful
  | failed
  deriving Repr, DecidableEq

/-- `Contract::resolve_sell`: on a successful remote transfer, nothing; on a
failed one, compensate by re-depositing the asset amount into the pool and
the native amount into the seller's balance. -/
def Contract.resolve_sell (c : Contract) (account_id : AccountId) (amount : Nat)
    (asset_id : AssetId) (asset_amount : Nat) (result : PromiseOutcome) :
    Option Contract :=
  match result with
  | .successful => some c
  | .failed => do
    let tr ← c.treasury.internal_deposit asset_id asset_amount
    let tok ← c.token.internal_deposit account_id amount
    some ⟨tok, tr⟩

/-- All stored words fit the 128-bit domain (guaranteed by the Rust types;
stated explicitly since the embedding stores unbounded `Nat`). -/
def TokenLedger.WF (t : TokenLedger) : Prop :=
  t.total_supply ≤ U128MAX ∧ ∀ p ∈ t.accounts, p.2 ≤ U128MAX

def Treasury.WF (t : Treasury) : Prop :=
  ∀ p ∈ t.assets, p.2.balance ≤ U128MAX

def Contract.WF (c : Contract) : Prop :=
  c.token.WF ∧ c.treasury.WF

instance (t : TokenLedger) : Decidable t.WF := by
  unfold TokenLedger.WF
  infer_instance

instance (t : Treasury) : Decidable t.WF := by
  unfold Treasury.WF
  infer_instance

instance (c : Contract) : Decidable c.WF := by
  unfold Contract.WF
  infer_instance

instance : Inhabited BuyStep := ⟨.convert none⟩

/-- Is this step a ledger mutation? -/
def isMutationStep : BuyStep → Bool
  | .poolDeposit _ _ => true
  | .tokenDeposit _ _ => true
  | .convert _ => false

/-- Is this step the conversion? -/
def isConvertStep : BuyStep → Bool
  | .convert _ => true
  | _ => false

/-- "The conversion is performed strictly before any ledger mutation": every
conversion step in the trace precedes every ledger-mutation step. -/
def conversionBeforeMutations (steps : List BuyStep) : Prop :=
  ∀ i, i < steps.length → ∀ j, j < steps.length →
    isConvertStep steps[i]! = true → isMutationStep steps[j]! = true → i < j

instance (steps : List BuyStep) : Decidable (conversionBeforeMutations steps) := by
  unfold conversionBeforeMutations
  infer_instance

/-! ## Association-list lemmas -/

theorem findA_insertA_self {α : Type} (l : List (Nat × α)) (k : Nat) (v : α) :
    findA (insertA l k v) k = some v := by
  induction l with
  | nil => simp [insertA, findA]
  | cons h t ih =>
    by_cases hk : h.1 = k
    · simp [insertA, hk, findA]
    · simp [insertA, hk, findA, ih]

theorem findA_insertA_ne {α : Type} (l : List (Nat × α)) (k k' : Nat) (v : α)
    (h : k ≠ k') : findA (insertA l k v) k' = findA l k' := by
  induction l with
  | nil => simp [insertA, findA, h]
  | cons hd t ih =>
    by_cases hk : hd.1 = k
    · simp [insertA, hk, findA, h]
    · simp [insertA, hk, findA, ih]

theorem findA_mem {α : Type} {l : List (Nat × α)} {k : Nat} {v : α}
    (h : findA l k = some v) : (k, v) ∈ l := by
  induction l with
  | nil => simp [findA] at h
  | cons hd t ih =>
    simp only [findA] at h
    by_cases hk : hd.1 = k
    · simp only [hk, if_pos rfl] at h
      cases h
      obtain ⟨k1, v1⟩ := hd
      simp only at hk
      subst hk
      exact List.mem_cons_self _ _
    · simp only [hk, if_neg hk] at h
      exact List.mem_cons_of_mem _ (ih h)

/-! ## Treasury operation lemmas -/

theorem set_asset_status_some {t : Treasury} {asset_id : AssetId} {a : AssetInfo}
    (h : findA t.assets asset_id = some a) (st : AssetStatus) :
    t.set_asset_status asset_id st =
      some ⟨insertA t.assets asset_id ⟨a.decimals, a.balance, st⟩⟩ := by
  unfold Treasury.set_asset_status
  rw [h]
  rfl

theorem set_asset_status_none {t : Treasury} {asset_id : AssetId}
    (h : findA t.assets asset_id = none) (st : AssetStatus) :
    t.set_asset_status asset_id st = none := by
  unfold Treasury.set_asset_status
  rw [h]
  rfl

theorem assert_asset_status_of_find {t : Treasury} {asset_id : AssetId}
    {a : AssetInfo} (h : findA t.assets asset_id = some a) (st : AssetStatus) :
    t.assert_asset_status asset_id st = if a.status = st then some a else none := by
  unfold Treasury.assert_asset_status Treasury.assert_asset
  rw [h]
  split <;> simp_all [bind]

theorem assert_asset_status_none {t : Treasury} {asset_id : AssetId}
    (h : findA t.assets asset_id = none) (st : AssetStatus) :
    t.assert_asset_status asset_id st = none := by
  unfold Treasury.assert_asset_status Treasury.assert_asset
  rw [h]
  rfl

/-! ## Characterizations of the checked operations -/

theorem chkAdd_eq_some {a b c : Nat} :
    chkAdd a b = some c ↔ a + b ≤ U128MAX ∧ c = a + b := by
  unfold chkAdd
  split <;> simp_all [eq_comm]

theorem chkSub_eq_some {a b c : Nat} :
    chkSub a b = some c ↔ b ≤ a ∧ c = a - b := by
  unfold chkSub
  split <;> simp_all [eq_comm]

theorem chkMul_eq_some {a b c : Nat} :
    chkMul a b = some c ↔ a * b ≤ U128MAX ∧ c = a * b := by
  unfold chkMul
  split <;> simp_all [eq_comm]

theorem chkDiv_eq_some {a b c : Nat} :
    chkDiv a b = some c ↔ b ≠ 0 ∧ c = a / b := by
  unfold chkDiv
  split <;> simp_all [eq_comm]

theorem pow10_eq_some {k c : Nat} :
    pow10 k = some c ↔ 10 ^ k ≤ U128MAX ∧ c = 10 ^ k := by
  unfold pow10
  split <;> simp_all [eq_comm]

/-! ## Token and treasury ledger operation lemmas -/

theorem assert_asset_status_eq_some {t : Treasury} {asset_id : AssetId}
    {st : AssetStatus} {a : AssetInfo}
    (h : t.assert_asset_status asset_id st = some a) :
    findA t.assets asset_id = some a ∧ a.status = st := by
  unfold Treasury.assert_asset_status Treasury.assert_asset at h
  cases hf : findA t.assets asset_id <;> rw [hf] at h
  · simp [bind] at h
  · simp only [bind, Option.some_bind] at h
    split at h
    · cases h
      exact ⟨rfl, by assumption⟩
    · cases h

theorem token_withdraw_eq_some {t : TokenLedger} {account_id amount : Nat}
    {t' : TokenLedger} (h : t.internal_withdraw account_id amount = some t') :
    amount ≤ t.balance_of account_id ∧ amount ≤ t.total_supply ∧
    t' = ⟨insertA t.accounts account_id (t.balance_of account_id - amount),
      t.total_supply - amount⟩ := by
  unfold TokenLedger.internal_withdraw at h
  simp only [bind, Option.bind_eq_some, Option.some.injEq] at h
  obtain ⟨nb, hnb, ts, hts, heq⟩ := h
  obtain ⟨h1, rfl⟩ := chkSub_eq_some.mp hnb
  obtain ⟨h2, rfl⟩ := chkSub_eq_some.mp hts
  exact ⟨h1, h2, heq.symm⟩

theorem treasury_withdraw_eq_some {t : Treasury} {asset_id : AssetId}
    {amount : Nat} {t' : Treasury}
    (h : t.internal_withdraw asset_id amount = some t') :
    ∃ a, findA t.assets asset_id = some a ∧ amount ≤ a.balance ∧
      t' = ⟨insertA t.assets asset_id ⟨a.decimals, a.balance - amount, a.status⟩⟩ := by
  unfold Treasury.internal_withdraw at h
  cases hf : findA t.assets asset_id <;> rw [hf] at h
  · simp [bind] at h
  case some a =>
    simp only [bind, Option.some_bind, Option.bind_eq_some, Option.some.injEq] at h
    obtain ⟨nb, hnb, heq⟩ := h
    obtain ⟨h1, rfl⟩ := chkSub_eq_some.mp hnb
    exact ⟨a, rfl, h1, heq.symm⟩

theorem treasury_deposit_of_find {t : Treasury} {asset_id : AssetId}
    {a : AssetInfo} (h : findA t.assets asset_id = some a) {amount : Nat}
    (hle : a.balance + amount ≤ U128MAX) :
    t.internal_deposit asset_id amount =
      some ⟨insertA t.assets asset_id ⟨a.decimals, a.balance + amount, a.status⟩⟩ := by
  unfold Treasury.internal_deposit
  rw [h]
  have : chkAdd a.balance amount = some (a.balance + amount) := by simp [chkAdd, hle]
  simp [bind, this]

theorem token_deposit_eq {t : TokenLedger} {account_id amount : Nat}
    (hb : t.balance_of account_id + amount ≤ U128MAX)
    (hs : t.total_supply + amount ≤ U128MAX) :
    t.internal_deposit account_id amount =
      some ⟨insertA t.accounts account_id (t.balance_of account_id + amount),
        t.total_supply + amount⟩ := by
  unfold TokenLedger.internal_deposit
  have h1 : chkAdd (t.balance_of account_id) amount =
      some (t.balance_of account_id + amount) := by simp [chkAdd, hb]
  have h2 : chkAdd t.total_supply amount = some (t.total_supply + amount) := by
    simp [chkAdd, hs]
  simp [bind, h1, h2]

theorem balance_of_le_of_WF {t : TokenLedger} (h : t.WF) (account_id : AccountId) :
    t.balance_of account_id ≤ U128MAX := by
  unfold TokenLedger.balance_of
  cases hf : findA t.accounts account_id
  · simp [U128MAX]
  case some v =>
    simpa using h.2 _ (findA_mem hf)

/-! ## Claim theorems -/

/-- Claim C1: the `TotalSupply == Σ HolderBalance.amount` invariant is meant to
be preserved by every balance mutation, but `internal_ft_resolve_transfer`'s
refund branch credits the sender with `sender_balance.amount + refund_amount`
instead of `refund_amount`: starting from a state satisfying the invariant
(sender 0 holds 10 at price 7, receiver 1 holds 5 at price 7, total supply 15),
resolving a failed transfer of 5 leaves the sender holding 25 while the total
supply is still 15, breaking the invariant. -/
theorem C1_resolve_transfer_refund_breaks_supply :
    (FungibleToken.mk [(0, ⟨10, 7⟩), (1, ⟨5, 7⟩)] 15).SupplyInv ∧
    (FungibleToken.mk [(0, ⟨10, 7⟩), (1, ⟨5, 7⟩)] 15).internal_ft_resolve_transfer
        0 1 5 7 .failed =
      some (⟨[(0, ⟨25, 7⟩), (1, ⟨0, 7⟩)], 15⟩, 0, 0) ∧
    ¬ (FungibleToken.mk [(0, ⟨25, 7⟩), (1, ⟨0, 7⟩)] 15).SupplyInv := by
  refine ⟨by decide, by decide, by decide⟩

/-- Claim C4: a successful `AccountBalance::checked_add` of amount `m` at
price `p` yields amount `a0 + m` and the incremental weighted mean: `p0`
unchanged when `p = p0`, `p0 + m*(p-p0)/(a0+m)` when `p > p0`,
`p0 - m*(p0-p)/(a0+m)` when `p < p0` (floor division); in particular
depositing 100 at price 1,000,000 then 200 at price 1,500,000 into an empty
account yields amount 300 and weighted price 1,333,333. -/
theorem C4_deposit_weighted_mean
    (b : AccountBalance) (m p : Nat) (b' : AccountBalance)
    (h : b.checked_add m p = some b') :
    (b'.amount = b.amount + m ∧
      b'.price =
        (if b.price = p then b.price
         else if b.price < p then b.price + m * (p - b.price) / (b.amount + m)
         else b.price - m * (b.price - p) / (b.amount + m))) ∧
    ((AccountBalance.mk 0 0).checked_add 100 1000000 = some ⟨100, 1000000⟩ ∧
      (AccountBalance.mk 100 1000000).checked_add 200 1500000 =
        some ⟨300, 1333333⟩) := by
  refine ⟨?_, by decide, by decide⟩
  unfold AccountBalance.checked_add at h
  simp only [bind, Option.bind_eq_some] at h
  obtain ⟨balance, hbal, h⟩ := h
  obtain ⟨hle, rfl⟩ := chkAdd_eq_some.mp hbal
  by_cases he : b.price = p
  · rw [if_pos he] at h
    simp only [Option.bind_eq_some, Option.some.injEq] at h
    obtain ⟨pr, hpr, rfl⟩ := h
    cases hpr
    simp [he]
  · rw [if_neg he] at h
    by_cases hlt : b.price < p
    · rw [if_pos hlt] at h
      simp only [Option.bind_eq_some, Option.some.injEq] at h
      obtain ⟨d, hd, q, hq, r, hr, rfl⟩ := h
      obtain ⟨-, rfl⟩ := chkMul_eq_some.mp hd
      obtain ⟨-, rfl⟩ := chkDiv_eq_some.mp hq
      obtain ⟨-, rfl⟩ := chkAdd_eq_some.mp hr
      simp [he, hlt]
    · rw [if_neg hlt] at h
      simp only [Option.bind_eq_some, Option.some.injEq] at h
      obtain ⟨d, hd, q, hq, r, hr, rfl⟩ := h
      obtain ⟨-, rfl⟩ := chkMul_eq_some.mp hd
      obtain ⟨-, rfl⟩ := chkDiv_eq_some.mp hq
      obtain ⟨-, rfl⟩ := chkSub_eq_some.mp hr
      simp [he, hlt]

/-- Witness for C4 at the spec's concrete deposit sequence. -/
theorem C4_deposit_weighted_mean_witness :
    (AccountBalance.mk 300 1333333).amount = 100 + 200 :=
  ((C4_deposit_weighted_mean ⟨100, 1000000⟩ 200 1500000 ⟨300, 1333333⟩
    (by decide)).1).1

/-- Claim C9: an operation that would leave a balance's post-operation amount
at zero while the supplied price differs from the stored weighted price fails
(the mean update divides by the new amount, zero): `checked_add` with zero
resulting amount, `checked_sub` of the full balance, `internal_withdraw` of
an account's entire balance at a differing price, and a deposit of 0 at a
nonzero price into an empty account all fail. -/
theorem C9_zero_balance_price_mismatch_fails :
    (∀ (b : AccountBalance) (m p : Nat), b.amount + m = 0 → p ≠ b.price →
      b.checked_add m p = none) ∧
    (∀ (b : AccountBalance) (p : Nat), p ≠ b.price →
      b.checked_sub b.amount p = none) ∧
    (∀ (t : FungibleToken) (account_id p : Nat),
      p ≠ (t.internal_unwrap_balance_of account_id).price →
      t.internal_withdraw account_id
        (t.internal_unwrap_balance_of account_id).amount p = none) ∧
    (∀ p : Nat, p ≠ 0 → AccountBalance.checked_add ⟨0, 0⟩ 0 p = none) := by
  have hsub : ∀ (b : AccountBalance) (p : Nat), p ≠ b.price →
      b.checked_sub b.amount p = none := by
    intro b p hne
    unfold AccountBalance.checked_sub
    have h0 : chkSub b.amount b.amount = some 0 := by simp [chkSub]
    simp only [bind, h0, Option.some_bind]
    rw [if_neg (Ne.symm hne)]
    have hdiv : ∀ d : Nat, chkDiv d 0 = none := by intro d; simp [chkDiv]
    by_cases hlt : b.price < p
    · rw [if_pos hlt]
      cases hmul : chkMul b.amount (p - b.price) <;> simp [hdiv]
    · rw [if_neg hlt]
      cases hmul : chkMul b.amount (b.price - p) <;> simp [hdiv]
  have hadd : ∀ (b : AccountBalance) (m p : Nat), b.amount + m = 0 → p ≠ b.price →
      b.checked_add m p = none := by
    intro b m p hzero hne
    obtain ⟨h1, h2⟩ : b.amount = 0 ∧ m = 0 := by omega
    unfold AccountBalance.checked_add
    have h0 : chkAdd b.amount m = some 0 := by simp [chkAdd, h1, h2]
    simp only [bind, h0, Option.some_bind]
    rw [if_neg (Ne.symm hne)]
    have hdiv : ∀ d : Nat, chkDiv d 0 = none := by intro d; simp [chkDiv]
    by_cases hlt : b.price < p
    · rw [if_pos hlt]
      cases hmul : chkMul m (p - b.price) <;> simp [hdiv]
    · rw [if_neg hlt]
      cases hmul : chkMul m (b.price - p) <;> simp [hdiv]
  refine ⟨hadd, hsub, ?_, ?_⟩
  · intro t account_id p hne
    unfold FungibleToken.internal_withdraw
    rw [hsub _ _ hne]
    rfl
  · intro p hp
    exact hadd ⟨0, 0⟩ 0 p (by decide) (by simpa using hp)

/-- Witness for C9: withdrawing the full balance 5 at price 9 ≠ stored 7 fails. -/
theorem C9_zero_balance_price_mismatch_fails_witness :
    (AccountBalance.mk 5 7).checked_sub 5 9 = none :=
  C9_zero_balance_price_mismatch_fails.2.1 ⟨5, 7⟩ 9 (by decide)

/-- Claim C3 counterexample: on a buy whose conversion overflows (asset with 6
decimals, amount `10^23`, quote multiplier 10000 at 10 decimals, native
equivalent `10^39 > 2^128 - 1`), the source performs the treasury pooled-
balance deposit strictly before the conversion, so the executed step trace is
`[poolDeposit, convert none]`, refuting "the conversion is performed strictly
before any ledger mutation of the buy commit". -/
theorem C3_buy_mutates_pool_before_conversion :
    (Contract.internal_buy_steps ⟨⟨[], 0⟩, ⟨[(1, ⟨6, 0, .Enabled⟩)]⟩⟩
        0 1 (10 ^ 23) ⟨10000, 10⟩).2 =
      [.poolDeposit 1 (10 ^ 23), .convert none] ∧
    exchange_asset_to_kt (10 ^ 23) 6 ⟨10000, 10⟩ = none ∧
    ¬ conversionBeforeMutations
        (Contract.internal_buy_steps ⟨⟨[], 0⟩, ⟨[(1, ⟨6, 0, .Enabled⟩)]⟩⟩
          0 1 (10 ^ 23) ⟨10000, 10⟩).2 := by
  refine ⟨by decide, by decide, by decide⟩

/-- Claim C3 (amended): a buy whose conversion fails aborts the whole call
with no observable ledger mutation — the pooled-balance deposit executed
before the conversion is rolled back by the abort, so no post-state is
produced. -/
theorem C3_overflowing_buy_aborts_without_mutation
    (c : Contract) (account_id asset_id amount : Nat) (price : ExchangePrice)
    (asset : AssetInfo)
    (hstat : c.treasury.assert_asset_status asset_id .Enabled = some asset)
    (hconv : exchange_asset_to_kt amount asset.decimals price = none) :
    c.internal_buy account_id asset_id amount price = none := by
  unfold Contract.internal_buy Contract.internal_buy_steps
  rw [hstat]
  cases hdep : c.treasury.internal_deposit asset_id amount <;> simp [hconv]

/-- Witness for the amended C3 at the concrete overflowing buy. -/
theorem C3_overflowing_buy_aborts_witness :
    Contract.internal_buy ⟨⟨[], 0⟩, ⟨[(1, ⟨6, 0, .Enabled⟩)]⟩⟩
      0 1 (10 ^ 23) ⟨10000, 10⟩ = none :=
  C3_overflowing_buy_aborts_without_mutation _ 0 1 (10 ^ 23) ⟨10000, 10⟩
    ⟨6, 0, .Enabled⟩ (by decide) (by decide)

/-- Claim C5: `exchange_asset_to_kt` on asset amount 1,000,000 (6 decimals)
under quote {multiplier 10001, decimals 10} returns exactly
999,900,009,999,000,099; in general it fails whenever the quote's decimals
are below the asset's, and on the success path it computes
`rescale(asset_amount, asset_decimals, 18) * 10^(quote.decimals -
asset_decimals) / quote.multiplier` (floor division). -/
theorem C5_exchange_asset_to_kt_spec :
    (exchange_asset_to_kt 1000000 6 ⟨10001, 10⟩ = some 999900009999000099) ∧
    (∀ (a d : Nat) (q : ExchangePrice), q.decimals < d →
      exchange_asset_to_kt a d q = none) ∧
    (∀ (a d r : Nat) (q : ExchangePrice), d ≤ q.decimals →
      convert_decimals a d KT_DECIMALS = some r →
      10 ^ (q.decimals - d) ≤ U128MAX →
      r * 10 ^ (q.decimals - d) ≤ U128MAX →
      q.multiplier ≠ 0 →
      exchange_asset_to_kt a d q =
        some (r * 10 ^ (q.decimals - d) / q.multiplier)) := by
  refine ⟨by decide, ?_, ?_⟩
  · intro a d q hlt
    unfold exchange_asset_to_kt
    have hsub : chkSub q.decimals d = none := by
      unfold chkSub
      rw [if_neg (by omega)]
    cases hc : convert_decimals a d KT_DECIMALS <;> simp [hsub]
  · intro a d r q hle hconv hpow hmul hne
    unfold exchange_asset_to_kt
    rw [hconv]
    have h1 : chkSub q.decimals d = some (q.decimals - d) := by simp [chkSub, hle]
    have h2 : pow10 (q.decimals - d) = some (10 ^ (q.decimals - d)) := by
      simp [pow10, hpow]
    have h3 : chkMul r (10 ^ (q.decimals - d)) = some (r * 10 ^ (q.decimals - d)) := by
      simp [chkMul, hmul]
    have h4 : chkDiv (r * 10 ^ (q.decimals - d)) q.multiplier =
        some (r * 10 ^ (q.decimals - d) / q.multiplier) := by
      simp [chkDiv, hne]
    simp [bind, h1, h2, h3, h4]

/-- Witness for C5's general formula at the spec's concrete buy quote. -/
theorem C5_exchange_asset_to_kt_spec_witness :
    exchange_asset_to_kt 1000000 6 ⟨10001, 10⟩ =
      some (10 ^ 18 * 10 ^ 4 / 10001) :=
  C5_exchange_asset_to_kt_spec.2.2 1000000 6 (10 ^ 18) ⟨10001, 10⟩
    (by decide) (by decide) (by decide) (by decide) (by decide)

/-- Claim C6: the slippage check succeeds iff the decimals match and the quote
multiplier lies in the closed window `[multiplier - slippage,
multiplier + slippage]` with saturating bounds; concretely, expected
multiplier 9,999 with slippage 10 accepts exactly the multipliers in
`[9,989, 10,009]` at matching decimals, and any differing decimals are
rejected regardless of multiplier. -/
theorem C6_assert_price_spec :
    (∀ (e : ExpectedPrice) (p : ExchangePrice),
      e.assert_price p = true ↔
        (e.decimals = p.decimals ∧
          e.multiplier - e.slippage ≤ p.multiplier ∧
          p.multiplier ≤ min (e.multiplier + e.slippage) U128MAX)) ∧
    (∀ m : Nat, (ExpectedPrice.mk 9999 10 10).assert_price ⟨m, 10⟩ = true ↔
      (9989 ≤ m ∧ m ≤ 10009)) ∧
    (∀ (m d : Nat), d ≠ 10 →
      (ExpectedPrice.mk 9999 10 10).assert_price ⟨m, d⟩ = false) := by
  have hiff : ∀ (e : ExpectedPrice) (p : ExchangePrice),
      e.assert_price p = true ↔
        (e.decimals = p.decimals ∧
          e.multiplier - e.slippage ≤ p.multiplier ∧
          p.multiplier ≤ min (e.multiplier + e.slippage) U128MAX) := by
    intro e p
    unfold ExpectedPrice.assert_price satSub satAdd
    simp [Bool.and_eq_true, decide_eq_true_iff]
  refine ⟨hiff, ?_, ?_⟩
  · intro m
    rw [hiff]
    have hle : (10009 : Nat) ≤ U128MAX := by decide
    constructor
    · rintro ⟨-, h1, h2⟩
      exact ⟨h1, le_trans h2 (min_le_left _ _)⟩
    · rintro ⟨h1, h2⟩
      exact ⟨rfl, h1, le_min h2 (le_trans h2 hle)⟩
  · intro m d hd
    unfold ExpectedPrice.assert_price
    simp [Ne.symm hd]

/-- Witness for C6 at a rejected off-decimals quote. -/
theorem C6_assert_price_spec_witness :
    (ExpectedPrice.mk 9999 10 10).assert_price ⟨10000, 6⟩ = false :=
  C6_assert_price_spec.2.2 10000 6 (by decide)

/-- Claim C7: when `b ≥ a`, a successful `convert_decimals x a b` (pure
multiplication) round-trips exactly: rescaling the result from `b` back to
`a` returns `x`; when `b < a`, the conversion floors (result ≤ x) and
rescaling the result back up yields a value ≤ x. -/
theorem C7_rescale_roundtrip :
    (∀ x a b y, a ≤ b → convert_decimals x a b = some y →
      convert_decimals y b a = some x) ∧
    (∀ x a b y, b < a → x ≤ U128MAX → convert_decimals x a b = some y →
      y ≤ x ∧ ∃ z, convert_decimals y b a = some z ∧ z ≤ x) := by
  constructor
  · intro x a b y hab h
    by_cases hEq : a = b
    · subst hEq
      unfold convert_decimals at h ⊢
      simp at h
      simp [h]
    · have hlt : a < b := lt_of_le_of_ne hab hEq
      unfold convert_decimals at h
      rw [if_neg hEq, if_pos hlt] at h
      simp only [bind, Option.bind_eq_some] at h
      obtain ⟨P, hP, hy⟩ := h
      obtain ⟨hPle, rfl⟩ := pow10_eq_some.mp hP
      obtain ⟨hyle, rfl⟩ := chkMul_eq_some.mp hy
      unfold convert_decimals
      rw [if_neg (by omega), if_neg (by omega)]
      have hP' : pow10 (b - a) = some (10 ^ (b - a)) := by simp [pow10, hPle]
      have hpos : 0 < 10 ^ (b - a) := Nat.pos_pow_of_pos _ (by norm_num)
      simp [bind, hP', chkDiv, Nat.ne_of_gt hpos, Nat.mul_div_cancel x hpos]
  · intro x a b y hba hxle h
    unfold convert_decimals at h
    rw [if_neg (by omega), if_neg (by omega)] at h
    simp only [bind, Option.bind_eq_some] at h
    obtain ⟨P, hP, hy⟩ := h
    obtain ⟨hPle, rfl⟩ := pow10_eq_some.mp hP
    obtain ⟨hPne, rfl⟩ := chkDiv_eq_some.mp hy
    refine ⟨Nat.div_le_self _ _, ?_⟩
    unfold convert_decimals
    rw [if_neg (by omega), if_pos (by omega)]
    have hP' : pow10 (a - b) = some (10 ^ (a - b)) := by simp [pow10, hPle]
    have hmle : x / 10 ^ (a - b) * 10 ^ (a - b) ≤ x := Nat.div_mul_le_self _ _
    refine ⟨x / 10 ^ (a - b) * 10 ^ (a - b), ?_, hmle⟩
    simp [bind, hP', chkMul, le_trans hmle hxle]

/-- Witness for C7 at the source's own test vector (28 → 32 → 28 decimals). -/
theorem C7_rescale_roundtrip_witness :
    convert_decimals 529940000 32 28 = some 52994 :=
  C7_rescale_roundtrip.1 52994 28 32 529940000 (by decide) (by decide)

/-- Claim C8: changing an asset's status fails on an unknown asset and on an
asset already in the requested status (strict transitions): enabling an
Enabled asset fails, disabling a Disabled asset fails, and toggling
Enabled → Disabled → Enabled restores exactly the original record. -/
theorem C8_status_strict_transitions :
    (∀ (t : Treasury) (asset_id : AssetId) (st : AssetStatus),
      t.assert_asset asset_id = none →
      t.enable_asset asset_id = none ∧ t.disable_asset asset_id = none ∧
        t.set_asset_status asset_id st = none) ∧
    (∀ (t : Treasury) (asset_id : AssetId) (a : AssetInfo),
      t.assert_asset asset_id = some a → a.status = .Enabled →
      t.enable_asset asset_id = none) ∧
    (∀ (t : Treasury) (asset_id : AssetId) (a : AssetInfo),
      t.assert_asset asset_id = some a → a.status = .Disabled →
      t.disable_asset asset_id = none) ∧
    (∀ (t : Treasury) (asset_id : AssetId) (a : AssetInfo),
      t.assert_asset asset_id = some a → a.status = .Enabled →
      ∃ t' t'', t.disable_asset asset_id = some t' ∧
        t'.enable_asset asset_id = some t'' ∧
        t''.assert_asset asset_id = some a) := by
  refine ⟨?_, ?_, ?_, ?_⟩
  · intro t asset_id st h
    refine ⟨?_, ?_, set_asset_status_none h st⟩
    · unfold Treasury.enable_asset
      rw [assert_asset_status_none h]
      rfl
    · unfold Treasury.disable_asset
      rw [assert_asset_status_none h]
      rfl
  · intro t asset_id a h hstat
    unfold Treasury.enable_asset
    rw [assert_asset_status_of_find h, if_neg (by rw [hstat]; decide)]
    rfl
  · intro t asset_id a h hstat
    unfold Treasury.disable_asset
    rw [assert_asset_status_of_find h, if_neg (by rw [hstat]; decide)]
    rfl
  · intro t asset_id a h hstat
    obtain ⟨dec, bal, st⟩ := a
    simp only at hstat
    subst hstat
    refine ⟨⟨insertA t.assets asset_id ⟨dec, bal, .Disabled⟩⟩,
      ⟨insertA (insertA t.assets asset_id ⟨dec, bal, .Disabled⟩) asset_id
        ⟨dec, bal, .Enabled⟩⟩, ?_, ?_, ?_⟩
    · unfold Treasury.disable_asset
      rw [assert_asset_status_of_find h, if_pos rfl]
      simpa [bind] using set_asset_status_some h .Disabled
    · unfold Treasury.enable_asset
      have hf : findA (insertA t.assets asset_id (⟨dec, bal, .Disabled⟩ : AssetInfo))
          asset_id = some ⟨dec, bal, .Disabled⟩ := findA_insertA_self _ _ _
      rw [assert_asset_status_of_find hf, if_pos rfl]
      simpa [bind] using set_asset_status_some hf .Enabled
    · unfold Treasury.assert_asset
      exact findA_insertA_self _ _ _

/-- Witness for C8: the round trip on a one-asset treasury. -/
theorem C8_status_strict_transitions_witness :
    ∃ t' t'', (Treasury.mk [(1, ⟨6, 0, .Enabled⟩)]).disable_asset 1 = some t' ∧
      t'.enable_asset 1 = some t'' ∧
      t''.assert_asset 1 = some ⟨6, 0, .Enabled⟩ :=
  C8_status_strict_transitions.2.2.2 ⟨[(1, ⟨6, 0, .Enabled⟩)]⟩ 1 ⟨6, 0, .Enabled⟩
    (by decide) rfl

/-- Claim C10: a successful `enable_asset` / `disable_asset` changes only the
target asset's status field — its decimals and pooled balance and every other
asset's entry are unchanged. -/
theorem C10_status_change_frame :
    (∀ (t : Treasury) (asset_id : AssetId) (a : AssetInfo) (t' : Treasury),
      t.assert_asset asset_id = some a → t.enable_asset asset_id = some t' →
      t'.assert_asset asset_id = some ⟨a.decimals, a.balance, .Enabled⟩ ∧
      ∀ j, j ≠ asset_id → t'.assert_asset j = t.assert_asset j) ∧
    (∀ (t : Treasury) (asset_id : AssetId) (a : AssetInfo) (t' : Treasury),
      t.assert_asset asset_id = some a → t.disable_asset asset_id = some t' →
      t'.assert_asset asset_id = some ⟨a.decimals, a.balance, .Disabled⟩ ∧
      ∀ j, j ≠ asset_id → t'.assert_asset j = t.assert_asset j) := by
  constructor
  · intro t asset_id a t' h hen
    unfold Treasury.enable_asset at hen
    rw [assert_asset_status_of_find h] at hen
    by_cases hst : a.status = .Disabled
    · rw [if_pos hst] at hen
      simp only [bind, Option.some_bind] at hen
      rw [set_asset_status_some h .Enabled] at hen
      cases hen
      constructor
      · unfold Treasury.assert_asset
        exact findA_insertA_self _ _ _
      · intro j hj
        unfold Treasury.assert_asset
        exact findA_insertA_ne _ _ _ _ (Ne.symm hj)
    · rw [if_neg hst] at hen
      simp [bind] at hen
  · intro t asset_id a t' h hen
    unfold Treasury.disable_asset at hen
    rw [assert_asset_status_of_find h] at hen
    by_cases hst : a.status = .Enabled
    · rw [if_pos hst] at hen
      simp only [bind, Option.some_bind] at hen
      rw [set_asset_status_some h .Disabled] at hen
      cases hen
      constructor
      · unfold Treasury.assert_asset
        exact findA_insertA_self _ _ _
      · intro j hj
        unfold Treasury.assert_asset
        exact findA_insertA_ne _ _ _ _ (Ne.symm hj)
    · rw [if_neg hst] at hen
      simp [bind] at hen

/-- Witness for C10: disabling asset 1 in a two-asset treasury keeps asset 2
and asset 1's decimals and pooled balance intact. -/
theorem C10_status_change_frame_witness :
    Treasury.assert_asset ⟨[(1, ⟨6, 44, .Disabled⟩), (2, ⟨9, 5, .Enabled⟩)]⟩ 1 =
        some ⟨6, 44, .Disabled⟩ ∧
      Treasury.assert_asset ⟨[(1, ⟨6, 44, .Disabled⟩), (2, ⟨9, 5, .Enabled⟩)]⟩ 2 =
        Treasury.assert_asset ⟨[(1, ⟨6, 44, .Enabled⟩), (2, ⟨9, 5, .Enabled⟩)]⟩ 2 :=
  have h := C10_status_change_frame.2 ⟨[(1, ⟨6, 44, .Enabled⟩), (2, ⟨9, 5, .Enabled⟩)]⟩
    1 ⟨6, 44, .Enabled⟩ ⟨[(1, ⟨6, 44, .Disabled⟩), (2, ⟨9, 5, .Enabled⟩)]⟩
    (by decide) (by decide)
  ⟨h.1, h.2 2 (by decide)⟩

/-- Claim C2: once a sell has committed (`internal_sell` withdrew the native
amount from the seller and the asset amount from the pool), running the
compensation path `resolve_sell` with a failed remote-transfer outcome
restores the seller's native balance and the asset's pooled entry exactly to
their pre-sell values, provided no other operation ran in between. -/
theorem C2_sell_compensation_restores
    (c : Contract) (account_id asset_id amount : Nat) (price : ExchangePrice)
    (c' : Contract) (asset_amount : Nat)
    (hwf : c.WF)
    (hsell : c.internal_sell account_id asset_id amount price =
      some (c', asset_amount)) :
    ∃ c'', c'.resolve_sell account_id amount asset_id asset_amount .failed =
        some c'' ∧
      c''.token.balance_of account_id = c.token.balance_of account_id ∧
      c''.treasury.assert_asset asset_id = c.treasury.assert_asset asset_id := by
  unfold Contract.internal_sell at hsell
  simp only [bind, Option.bind_eq_some, Option.some.injEq] at hsell
  obtain ⟨asset, h1, tok, h2, aa, h3, tr, h4, heq⟩ := hsell
  cases heq
  obtain ⟨hfind, hstat⟩ := assert_asset_status_eq_some h1
  obtain ⟨hble, hsle, rfl⟩ := token_withdraw_eq_some h2
  obtain ⟨a4, hfind4, haale, rfl⟩ := treasury_withdraw_eq_some h4
  rw [hfind] at hfind4
  cases hfind4
  -- the compensating treasury deposit restores the pooled balance
  have hpool : asset.balance ≤ U128MAX := hwf.2 _ (findA_mem hfind)
  have hfind' : findA (insertA c.treasury.assets asset_id
      ⟨asset.decimals, asset.balance - asset_amount, asset.status⟩) asset_id =
      some ⟨asset.decimals, asset.balance - asset_amount, asset.status⟩ :=
    findA_insertA_self _ _ _
  have htr : Treasury.internal_deposit
      ⟨insertA c.treasury.assets asset_id
        ⟨asset.decimals, asset.balance - asset_amount, asset.status⟩⟩ asset_id asset_amount =
      some ⟨insertA (insertA c.treasury.assets asset_id
        ⟨asset.decimals, asset.balance - asset_amount, asset.status⟩) asset_id
        ⟨asset.decimals, asset.balance - asset_amount + asset_amount, asset.status⟩⟩ :=
    treasury_deposit_of_find hfind' (by simp; omega)
  rw [Nat.sub_add_cancel haale] at htr
  -- the compensating token deposit restores the seller's balance
  set tokm : TokenLedger :=
    ⟨insertA c.token.accounts account_id (c.token.balance_of account_id - amount),
      c.token.total_supply - amount⟩ with htokm
  have hbal' : tokm.balance_of account_id =
      c.token.balance_of account_id - amount := by
    unfold TokenLedger.balance_of
    rw [htokm]
    simp [findA_insertA_self]
    rfl
  have hbmax : c.token.balance_of account_id ≤ U128MAX :=
    balance_of_le_of_WF hwf.1 account_id
  have htsmax : c.token.total_supply ≤ U128MAX := hwf.1.1
  have htok : tokm.internal_deposit account_id amount =
      some ⟨insertA tokm.accounts account_id
        (tokm.balance_of account_id + amount), tokm.total_supply + amount⟩ :=
    token_deposit_eq (by rw [hbal']; omega) (by rw [htokm]; simp; omega)
  rw [hbal', Nat.sub_add_cancel hble] at htok
  refine ⟨⟨⟨insertA tokm.accounts account_id (c.token.balance_of account_id),
    tokm.total_supply + amount⟩,
    ⟨insertA (insertA c.treasury.assets asset_id
      ⟨asset.decimals, asset.balance - asset_amount, asset.status⟩) asset_id
      ⟨asset.decimals, asset.balance, asset.status⟩⟩⟩, ?_, ?_, ?_⟩
  · unfold Contract.resolve_sell
    simp only [bind, htr, Option.some_bind, htok]
  · unfold TokenLedger.balance_of
    simp [findA_insertA_self]
  · unfold Treasury.assert_asset
    rw [findA_insertA_self, hfind]

/-- Witness for C2: a committed sell of `10^18` native units against a pool of
1,000,000 (6-decimals asset, quote multiplier 10000 at 10 decimals), then the
failed-transfer compensation. -/
theorem C2_sell_compensation_restores_witness :
    ∃ c'', Contract.resolve_sell
        ⟨⟨[(0, 0)], 0⟩, ⟨[(1, ⟨6, 0, .Enabled⟩)]⟩⟩
        0 1000000000000000000 1 1000000 .failed = some c'' ∧
      c''.token.balance_of 0 =
        (Contract.mk ⟨[(0, 1000000000000000000)], 1000000000000000000⟩
          ⟨[(1, ⟨6, 1000000, .Enabled⟩)]⟩).token.balance_of 0 ∧
      c''.treasury.assert_asset 1 =
        (Contract.mk ⟨[(0, 1000000000000000000)], 1000000000000000000⟩
          ⟨[(1, ⟨6, 1000000, .Enabled⟩)]⟩).treasury.assert_asset 1 :=
  C2_sell_compensation_restores
    ⟨⟨[(0, 1000000000000000000)], 1000000000000000000⟩,
      ⟨[(1, ⟨6, 1000000, .Enabled⟩)]⟩⟩
    0 1 1000000000000000000 ⟨10000, 10⟩
    ⟨⟨[(0, 0)], 0⟩, ⟨[(1, ⟨6, 0, .Enabled⟩)]⟩⟩ 1000000
    (by decide) (by decide)

end KToken
